import Mathlib

/-!
Books API — a shallow embedding of the server source.

This file embeds the request-validation and collection-mutation logic of the
book-management HTTP service (`server.js`) and proves properties about it.
The HTTP transport, JSON encoding and logging are out of scope; each route
handler is embedded as a pure function from the parsed request pieces
(path-parameter string, body fields as JS values) and the store state
(`books` array plus `nextId` counter) to a response value and the new state.
Timestamps (`new Date()`) are modelled by an explicit `now : Nat` argument.
-/

namespace BooksApi

/-! ## JavaScript string primitives (ASCII model) -/

/-- ASCII model of `String.prototype.toLowerCase` on a single character:
uppercase ASCII letters map to their lowercase counterparts, everything
else is unchanged. -/
def jsCharToLower (c : Char) : Char :=
  match c with
  | 'A' => 'a' | 'B' => 'b' | 'C' => 'c' | 'D' => 'd' | 'E' => 'e'
  | 'F' => 'f' | 'G' => 'g' | 'H' => 'h' | 'I' => 'i' | 'J' => 'j'
  | 'K' => 'k' | 'L' => 'l' | 'M' => 'm' | 'N' => 'n' | 'O' => 'o'
  | 'P' => 'p' | 'Q' => 'q' | 'R' => 'r' | 'S' => 's' | 'T' => 't'
  | 'U' => 'u' | 'V' => 'v' | 'W' => 'w' | 'X' => 'x' | 'Y' => 'y'
  | 'Z' => 'z'
  | c => c

/-- Model of `String.prototype.toLowerCase` (ASCII range). -/
def jsToLower (s : String) : String :=
  ⟨s.data.map jsCharToLower⟩

/-- Trim whitespace from both ends of a character list, as
`String.prototype.trim` does. -/
def jsTrimList (cs : List Char) : List Char :=
  ((cs.dropWhile Char.isWhitespace).reverse.dropWhile Char.isWhitespace).reverse

/-- Model of `String.prototype.trim`. -/
def jsTrim (s : String) : String :=
  ⟨jsTrimList s.data⟩

/-- Model of `String.prototype.includes`: `sub` occurs contiguously in `s`. -/
def jsIncludes (s sub : String) : Bool :=
  decide (sub.data <:+: s.data)

/-! ## `parseInt` (radix argument omitted, as in the source) -/

/-- Value of a decimal digit character, or `none`. -/
def decDigitVal (c : Char) : Option Nat :=
  if '0' ≤ c ∧ c ≤ '9' then some (c.toNat - '0'.toNat) else none

/-- Value of a hexadecimal digit character, or `none`. -/
def hexDigitVal (c : Char) : Option Nat :=
  if '0' ≤ c ∧ c ≤ '9' then some (c.toNat - '0'.toNat)
  else if 'a' ≤ c ∧ c ≤ 'f' then some (c.toNat - 'a'.toNat + 10)
  else if 'A' ≤ c ∧ c ≤ 'F' then some (c.toNat - 'A'.toNat + 10)
  else none

/-- Accumulate the longest leading run of digits (per `dv`) in base `base`;
`none` when no digit at all was consumed (the `NaN` outcome). -/
def takeDigits (dv : Char → Option Nat) (base : Nat) :
    List Char → Option Nat → Option Nat
  | [], acc => acc
  | c :: cs, acc =>
    match dv c with
    | none => acc
    | some d => takeDigits dv base cs (some (acc.getD 0 * base + d))

/-- Model of JavaScript `parseInt(s)` with the radix argument omitted:
skip leading whitespace, read an optional sign, then either a `0x`/`0X`
hexadecimal literal or the longest leading run of decimal digits; `none`
models `NaN` (no digit consumed). Trailing non-digit characters are
ignored. -/
def jsParseInt (s : String) : Option Int :=
  let cs := s.data.dropWhile Char.isWhitespace
  let signed : Int × List Char :=
    match cs with
    | '-' :: rest => (-1, rest)
    | '+' :: rest => (1, rest)
    | _ => (1, cs)
  let body : Option Nat :=
    match signed.2 with
    | '0' :: x :: rest =>
      if x = 'x' ∨ x = 'X' then takeDigits hexDigitVal 16 rest none
      else takeDigits decDigitVal 10 signed.2 none
    | _ => takeDigits decDigitVal 10 signed.2 none
  body.map (fun n => signed.1 * (n : Int))

/-! ## JS values for untrusted body fields -/

/-- A parsed JSON body field as JavaScript sees it.  `undef` models a field
absent from the request body (`undefined`). -/
inductive JSValue where
  | undef
  | null
  | bool (b : Bool)
  | num (n : Int)
  | str (s : String)
  deriving DecidableEq, Repr

/-- JavaScript truthiness: `undefined`, `null`, `false`, `0` and the empty
string are falsy. -/
def JSValue.truthy : JSValue → Bool
  | .undef => false
  | .null => false
  | .bool b => b
  | .num n => decide (n ≠ 0)
  | .str s => decide (s ≠ "")

/-- `typeof v === "string"`. -/
def JSValue.isStr : JSValue → Bool
  | .str _ => true
  | _ => false

/-- `typeof v === "string" && v.trim() === ""`. -/
def JSValue.isBlankStr : JSValue → Bool
  | .str s => decide (jsTrim s = "")
  | _ => false

/-- The underlying string of a string value (call sites only reach this
after validation has established `isStr`). -/
def JSValue.asStr : JSValue → String
  | .str s => s
  | _ => ""

/-! ## Data model -/

/-- A book record as stored in the `books` array. -/
structure Book where
  id : Int
  title : String
  author : String
  createdAt : Nat
  updatedAt : Nat
  deriving DecidableEq, Repr

/-- The module-level mutable state: the `books` array and the `nextId`
counter. -/
structure StoreState where
  books : List Book
  nextId : Int
  deriving DecidableEq, Repr

/-- `let books = []; let nextId = 1;` -/
def initialState : StoreState :=
  { books := [], nextId := 1 }

/-- `findBookById(id)`: `books.findIndex(book => book.id === id)` and the
book at that index, or `null`. -/
def findBookById (id : Int) : List Book → Option (Nat × Book)
  | [] => none
  | b :: bs =>
    if b.id = id then some (0, b)
    else (findBookById id bs).map (fun p => (p.1 + 1, p.2))

/-- Result shape of `validateBookData`. -/
structure ValidationResult where
  isValid : Bool
  errors : List String
  deriving DecidableEq, Repr

/-- `validateBookData(title, author)`: the presence check short-circuits
with a single error; otherwise type errors for both fields are pushed,
then emptiness errors for both fields, and the result is valid iff no
error was pushed. -/
def validateBookData (title author : JSValue) : ValidationResult :=
  if title = .undef ∨ author = .undef then
    { isValid := false, errors := ["Title and author are required fields"] }
  else
    let errors : List String :=
      (if ¬ title.isStr then ["Title must be a string"] else []) ++
      (if ¬ author.isStr then ["Author must be a string"] else []) ++
      (if title.isBlankStr then ["Title cannot be empty"] else []) ++
      (if author.isBlankStr then ["Author cannot be empty"] else [])
    { isValid := errors.isEmpty, errors := errors }

/-! ## Route handlers -/

/-- Response of the list-all route. -/
structure ListResponse where
  count : Nat
  data : List Book
  deriving DecidableEq, Repr

/-- `GET /books`: `{ count: books.length, data: books }`. -/
def listAllBooks (books : List Book) : ListResponse :=
  { count := books.length, data := books }

/-- Response of the get-one route. -/
inductive GetResult where
  | invalidId
  | notPositive
  | notFound (id : Int)
  | found (book : Book)
  deriving DecidableEq, Repr

/-- Body of the get-one route after the id has been parsed and checked. -/
def getBookCore (id : Int) (books : List Book) : GetResult :=
  match findBookById id books with
  | none => .notFound id
  | some p => .found p.2

/-- `GET /books/:id`: parse the id, reject `NaN` and non-positive values,
then look the book up. -/
def getBookById (idStr : String) (books : List Book) : GetResult :=
  match jsParseInt idStr with
  | none => .invalidId
  | some id =>
    if id ≤ 0 then .notPositive
    else getBookCore id books

/-- Response of the create route. -/
inductive PostResult where
  | invalid (errors : List String)
  | created (book : Book)
  deriving DecidableEq, Repr

/-- `POST /books`: validate, then trim both fields, build the new book with
`id = nextId++` and `createdAt = updatedAt = now`, and push it. -/
def postBook (title author : JSValue) (now : Nat) (s : StoreState) :
    PostResult × StoreState :=
  let v := validateBookData title author
  if v.isValid then
    let newBook : Book :=
      { id := s.nextId, title := jsTrim title.asStr,
        author := jsTrim author.asStr, createdAt := now, updatedAt := now }
    (.created newBook, { books := s.books ++ [newBook], nextId := s.nextId + 1 })
  else
    (.invalid v.errors, s)

/-- Response of the update route. -/
inductive PutResult where
  | invalidId
  | notPositive
  | notFound (id : Int)
  | noFields
  | titleNotString
  | titleEmpty
  | authorNotString
  | authorEmpty
  | updated (updatedFields : List String) (book : Book)
  deriving DecidableEq, Repr

/-- Every `PutResult` except `updated` is an error response. -/
def PutResult.isError : PutResult → Bool
  | .updated _ _ => false
  | _ => true

/-- Tail of the update handler: set `updatedAt = now` on the record at
`idx` and respond with the updated record and the collected field names. -/
def putFinish (now : Nat) (books : List Book) (idx : Nat) (book : Book)
    (fields : List String) : PutResult × List Book :=
  let final : Book := { book with updatedAt := now }
  (.updated fields final, books.set idx final)

/-- Author step of the update handler.  `books` already carries the title
mutation when one happened; an error return here therefore keeps that
mutation, exactly as the imperative source does. -/
def putAuthorStep (author : JSValue) (now : Nat) (books : List Book)
    (idx : Nat) (book : Book) (fields : List String) :
    PutResult × List Book :=
  match author with
  | .undef => putFinish now books idx book fields
  | .str a =>
    if jsTrim a = "" then (.authorEmpty, books)
    else
      putFinish now (books.set idx { book with author := jsTrim a }) idx
        { book with author := jsTrim a } (fields ++ ["author"])
  | _ => (.authorNotString, books)

/-- Body of the update handler after the id has been parsed and checked:
find the book, require at least one truthy field, then mutate title and
author in sequence (each mutation lands before the next check). -/
def putBookCore (id : Int) (title author : JSValue) (now : Nat)
    (books : List Book) : PutResult × List Book :=
  match findBookById id books with
  | none => (.notFound id, books)
  | some (idx, book) =>
    if title.truthy = false ∧ author.truthy = false then (.noFields, books)
    else
      match title with
      | .undef => putAuthorStep author now books idx book []
      | .str t =>
        if jsTrim t = "" then (.titleEmpty, books)
        else
          putAuthorStep author now (books.set idx { book with title := jsTrim t })
            idx { book with title := jsTrim t } ["title"]
      | _ => (.titleNotString, books)

/-- `PUT /books/:id`: parse and check the id, then run the core update.
The `nextId` counter is untouched. -/
def putBook (idStr : String) (title author : JSValue) (now : Nat)
    (s : StoreState) : PutResult × StoreState :=
  match jsParseInt idStr with
  | none => (.invalidId, s)
  | some id =>
    if id ≤ 0 then (.notPositive, s)
    else
      let r := putBookCore id title author now s.books
      (r.1, { s with books := r.2 })

/-- The `{id, title, author}` confirmation snapshot of a deleted book. -/
structure DeletedSnapshot where
  id : Int
  title : String
  author : String
  deriving DecidableEq, Repr

/-- Response of the delete-one route. -/
inductive DeleteResult where
  | invalidId
  | notPositive
  | notFound (id : Int)
  | deleted (snapshot : DeletedSnapshot)
  deriving DecidableEq, Repr

/-- Body of the delete-one route after the id has been parsed and checked:
take the snapshot, then `books.splice(index, 1)`. -/
def deleteBookCore (id : Int) (books : List Book) :
    DeleteResult × List Book :=
  match findBookById id books with
  | none => (.notFound id, books)
  | some (idx, book) =>
    (.deleted { id := id, title := book.title, author := book.author },
     books.eraseIdx idx)

/-- `DELETE /books/:id`: parse and check the id, then run the core delete.
The `nextId` counter is untouched. -/
def deleteBookById (idStr : String) (s : StoreState) :
    DeleteResult × StoreState :=
  match jsParseInt idStr with
  | none => (.invalidId, s)
  | some id =>
    if id ≤ 0 then (.notPositive, s)
    else
      let r := deleteBookCore id s.books
      (r.1, { s with books := r.2 })

/-- Response of the delete-all route. -/
structure DeleteAllResponse where
  count : Nat
  data : List Book
  deriving DecidableEq, Repr

/-- `DELETE /books`: snapshot the collection, clear it and reset the id
counter to 1. -/
def deleteAllBooks (s : StoreState) : DeleteAllResponse × StoreState :=
  ({ count := s.books.length, data := s.books },
   { books := [], nextId := 1 })

/-- Match predicate of the search handler: the lowercased title or author
contains the (already lowercased) query. -/
def bookMatches (query : String) (b : Book) : Bool :=
  jsIncludes (jsToLower b.title) query || jsIncludes (jsToLower b.author) query

/-- Response of the search route. -/
inductive SearchResult where
  | emptyQuery
  | results (query : String) (count : Nat) (data : List Book)
  deriving DecidableEq, Repr

/-- `GET /books/search/:query`: lowercase the query, reject it when empty
or blank after trimming, else filter the collection. -/
def searchBooks (rawQuery : String) (books : List Book) : SearchResult :=
  let query := jsToLower rawQuery
  if query = "" ∨ jsTrim query = "" then .emptyQuery
  else
    let results := books.filter (bookMatches query)
    .results rawQuery results.length results

/-! ## Trace semantics and concrete sample data -/

/-- A fixed sample record used by concrete instantiations. -/
def sampleBook : Book :=
  { id := 1, title := "Old Title", author := "Old Author",
    createdAt := 0, updatedAt := 0 }

/-- A store holding `sampleBook` with the counter already at 2. -/
def sampleState : StoreState :=
  { books := [sampleBook], nextId := 2 }

/-- Run a sequence of create requests in order; collect the ids of the
books created by the successful ones. -/
def postIds : List (JSValue × JSValue × Nat) → StoreState → List Int
  | [], _ => []
  | (t, a, now) :: rest, s =>
    match postBook t a now s with
    | (.created b, s1) => b.id :: postIds rest s1
    | (.invalid _, s1) => postIds rest s1

/-- The operations a request trace can perform against the store. -/
inductive Op where
  | post (title author : JSValue) (now : Nat)
  | put (idStr : String) (title author : JSValue) (now : Nat)
  | deleteOne (idStr : String)
  | deleteAll
  deriving DecidableEq, Repr

/-- One trace step: the store state paired with the list of every id
issued by a successful insert since process start. -/
def runOp (st : StoreState × List Int) : Op → StoreState × List Int
  | .post t a now =>
    match postBook t a now st.1 with
    | (.created b, s1) => (s1, st.2 ++ [b.id])
    | (.invalid _, s1) => (s1, st.2)
  | .put idStr t a now => ((putBook idStr t a now st.1).2, st.2)
  | .deleteOne idStr => ((deleteBookById idStr st.1).2, st.2)
  | .deleteAll => ((deleteAllBooks st.1).2, st.2)

/-- Run a trace from process start (empty store, counter 1, nothing
issued). -/
def runOps (ops : List Op) : StoreState × List Int :=
  ops.foldl runOp (initialState, [])

/-- The id-issuing invariant: every issued id is below the counter and no
id was issued twice. -/
def IssueInv (st : StoreState × List Int) : Prop :=
  (∀ i ∈ st.2, i < st.1.nextId) ∧ st.2.Nodup

/-! ## Supporting lemmas -/

theorem jsCharToLower_isWhitespace (c : Char) :
    (jsCharToLower c).isWhitespace = c.isWhitespace := by
  unfold jsCharToLower
  split <;> rfl

theorem jsTrimList_eq_nil_iff (cs : List Char) :
    jsTrimList cs = [] ↔ ∀ c ∈ cs, c.isWhitespace := by
  unfold jsTrimList
  rw [List.reverse_eq_nil_iff, List.dropWhile_eq_nil_iff]
  constructor
  · intro h a ha
    rw [← List.takeWhile_append_dropWhile (p := Char.isWhitespace) (l := cs)] at ha
    rcases List.mem_append.1 ha with h1 | h2
    · exact List.mem_takeWhile_imp h1
    · exact h a (List.mem_reverse.2 h2)
  · intro h a ha
    exact h a ((List.dropWhile_sublist _).mem (List.mem_reverse.1 ha))

theorem jsTrim_eq_empty_iff (s : String) :
    jsTrim s = "" ↔ ∀ c ∈ s.data, c.isWhitespace := by
  unfold jsTrim
  rw [show ("" : String) = ⟨[]⟩ from rfl]
  rw [String.ext_iff]
  exact jsTrimList_eq_nil_iff s.data

theorem jsTrim_toLower_empty_iff (s : String) :
    jsTrim (jsToLower s) = "" ↔ jsTrim s = "" := by
  rw [jsTrim_eq_empty_iff, jsTrim_eq_empty_iff]
  show (∀ c ∈ s.data.map jsCharToLower, c.isWhitespace) ↔ _
  constructor
  · intro h c hc
    rw [← jsCharToLower_isWhitespace]
    exact h _ (List.mem_map_of_mem _ hc)
  · intro h c hc
    obtain ⟨d, hd, rfl⟩ := List.mem_map.1 hc
    rw [jsCharToLower_isWhitespace]
    exact h d hd

theorem findBookById_some {id : Int} {books : List Book} {idx : Nat} {b : Book}
    (h : findBookById id books = some (idx, b)) :
    idx < books.length ∧ books[idx]? = some b ∧ b.id = id := by
  induction books generalizing idx with
  | nil => simp [findBookById] at h
  | cons hd tl ih =>
    unfold findBookById at h
    split at h
    · rename_i heq
      obtain ⟨rfl, rfl⟩ := by simpa using h
      simpa using heq
    · simp only [Option.map_eq_some'] at h
      obtain ⟨⟨j, b2⟩, hj, hb⟩ := h
      obtain ⟨rfl, rfl⟩ := by simpa using hb
      obtain ⟨h1, h2, h3⟩ := ih hj
      refine ⟨by simpa using h1, by simpa using h2, h3⟩

theorem putAuthorStep_undef (now : Nat) (books : List Book) (idx : Nat)
    (book : Book) (fields : List String) :
    putAuthorStep .undef now books idx book fields =
      (.updated fields { book with updatedAt := now },
       books.set idx { book with updatedAt := now }) := rfl

theorem putAuthorStep_str (s : String) (now : Nat) (books : List Book) (idx : Nat)
    (book : Book) (fields : List String) :
    putAuthorStep (.str s) now books idx book fields =
      if jsTrim s = "" then (.authorEmpty, books)
      else (.updated (fields ++ ["author"]) { book with author := jsTrim s, updatedAt := now },
            books.set idx { book with author := jsTrim s, updatedAt := now }) := by
  show (if jsTrim s = "" then _
        else putFinish now (books.set idx { book with author := jsTrim s }) idx
          { book with author := jsTrim s } (fields ++ ["author"])) = _
  split
  · rfl
  · simp only [putFinish, List.set_set]

theorem putAuthorStep_null (now : Nat) (books : List Book) (idx : Nat)
    (book : Book) (fields : List String) :
    putAuthorStep .null now books idx book fields = (.authorNotString, books) := rfl

theorem putAuthorStep_bool (b2 : Bool) (now : Nat) (books : List Book) (idx : Nat)
    (book : Book) (fields : List String) :
    putAuthorStep (.bool b2) now books idx book fields = (.authorNotString, books) := rfl

theorem putAuthorStep_num (n : Int) (now : Nat) (books : List Book) (idx : Nat)
    (book : Book) (fields : List String) :
    putAuthorStep (.num n) now books idx book fields = (.authorNotString, books) := rfl

theorem putBookCore_found (id : Int) (title author : JSValue) (now : Nat)
    (books : List Book) (idx : Nat) (book : Book)
    (hf : findBookById id books = some (idx, book))
    (hnf : ¬ (title.truthy = false ∧ author.truthy = false)) :
    putBookCore id title author now books =
      match title with
      | .undef => putAuthorStep author now books idx book []
      | .str t =>
        if jsTrim t = "" then (.titleEmpty, books)
        else putAuthorStep author now (books.set idx { book with title := jsTrim t })
          idx { book with title := jsTrim t } ["title"]
      | _ => (.titleNotString, books) := by
  unfold putBookCore
  rw [hf]
  dsimp only
  rw [if_neg hnf]
  cases title <;> rfl

theorem putAuthorStep_ne_noFields (a : JSValue) (now : Nat) (books : List Book)
    (idx : Nat) (book : Book) (fields : List String) :
    (putAuthorStep a now books idx book fields).1 ≠ PutResult.noFields := by
  cases a
  · rw [putAuthorStep_undef]; simp
  · rw [putAuthorStep_null]; simp
  · rw [putAuthorStep_bool]; simp
  · rw [putAuthorStep_num]; simp
  · rw [putAuthorStep_str]; split <;> simp

theorem set_frame_aux (books : List Book) (idx : Nat) (book bk : Book)
    (hget : books[idx]? = some book)
    (hid : bk.id = book.id) (hau : bk.author = book.author)
    (hcr : bk.createdAt = book.createdAt) (hup : bk.updatedAt = book.updatedAt) (i : Nat) :
    (((books.set idx bk)[i]?).map Book.id = (books[i]?).map Book.id) ∧
    (((books.set idx bk)[i]?).map Book.author = (books[i]?).map Book.author) ∧
    (((books.set idx bk)[i]?).map Book.createdAt = (books[i]?).map Book.createdAt) ∧
    (((books.set idx bk)[i]?).map Book.updatedAt = (books[i]?).map Book.updatedAt) := by
  by_cases hi : idx = i
  · subst hi
    have hlt : idx < books.length := by
      by_contra hge
      rw [List.getElem?_eq_none (by omega)] at hget
      cases hget
    rw [List.getElem?_set_self hlt, hget]
    simp [hid, hau, hcr, hup]
  · rw [List.getElem?_set_ne hi]
    exact ⟨rfl, rfl, rfl, rfl⟩

theorem postIds_cons (t a : JSValue) (now : Nat)
    (rest : List (JSValue × JSValue × Nat)) (s : StoreState) :
    postIds ((t, a, now) :: rest) s =
      match postBook t a now s with
      | (.created b, s1) => b.id :: postIds rest s1
      | (.invalid _, s1) => postIds rest s1 := rfl

/-- `postBook` either creates the book with id `nextId` and bumps the
counter, or rejects and leaves the state untouched. -/
theorem postBook_cases (t a : JSValue) (now : Nat) (s : StoreState) :
    (∃ b, postBook t a now s =
        (.created b, { books := s.books ++ [b], nextId := s.nextId + 1 }) ∧
      b.id = s.nextId) ∨
    (∃ e, postBook t a now s = (.invalid e, s)) := by
  simp only [postBook]
  split
  · exact Or.inl ⟨_, rfl, rfl⟩
  · exact Or.inr ⟨_, rfl⟩

theorem postIds_lower_bound (reqs : List (JSValue × JSValue × Nat))
    (s : StoreState) : ∀ i ∈ postIds reqs s, s.nextId ≤ i := by
  induction reqs generalizing s with
  | nil => simp [postIds]
  | cons r rest ih =>
    obtain ⟨t, a, now⟩ := r
    intro i hi
    rw [postIds_cons] at hi
    rcases postBook_cases t a now s with ⟨b, hb, hbid⟩ | ⟨e, he⟩
    · rw [hb] at hi
      dsimp only at hi
      rcases List.mem_cons.1 hi with rfl | hmem
      · omega
      · have hle := ih { books := s.books ++ [b], nextId := s.nextId + 1 } i hmem
        dsimp only at hle
        omega
    · rw [he] at hi
      dsimp only at hi
      exact ih s i hi

theorem postIds_pairwise (reqs : List (JSValue × JSValue × Nat)) (s : StoreState) :
    (postIds reqs s).Pairwise (· < ·) := by
  induction reqs generalizing s with
  | nil => simp [postIds]
  | cons r rest ih =>
    obtain ⟨t, a, now⟩ := r
    rw [postIds_cons]
    rcases postBook_cases t a now s with ⟨b, hb, hbid⟩ | ⟨e, he⟩
    · rw [hb]
      dsimp only
      rw [List.pairwise_cons]
      refine ⟨fun y hy => ?_, ih _⟩
      have hle := postIds_lower_bound rest { books := s.books ++ [b], nextId := s.nextId + 1 } y hy
      dsimp only at hle
      omega
    · rw [he]
      dsimp only
      exact ih s

theorem putBook_nextId (idStr : String) (t a : JSValue) (now : Nat) (s : StoreState) :
    (putBook idStr t a now s).2.nextId = s.nextId := by
  unfold putBook
  split
  · rfl
  · split
    · rfl
    · rfl

theorem deleteBookById_nextId (idStr : String) (s : StoreState) :
    (deleteBookById idStr s).2.nextId = s.nextId := by
  unfold deleteBookById
  split
  · rfl
  · split
    · rfl
    · rfl

theorem runOp_preserves_inv (st : StoreState × List Int) (op : Op)
    (hop : op ≠ .deleteAll) (h : IssueInv st) : IssueInv (runOp st op) := by
  obtain ⟨hlt, hnd⟩ := h
  cases op with
  | post t a now =>
    show IssueInv (match postBook t a now st.1 with
      | (.created b, s1) => (s1, st.2 ++ [b.id])
      | (.invalid _, s1) => (s1, st.2))
    rcases postBook_cases t a now st.1 with ⟨b, hb, hbid⟩ | ⟨e, he⟩
    · rw [hb]
      dsimp only [IssueInv]
      constructor
      · intro i hi
        rcases List.mem_append.1 hi with hm | hm
        · have := hlt i hm
          omega
        · have : i = b.id := by simpa using hm
          omega
      · rw [List.nodup_append]
        refine ⟨hnd, List.nodup_singleton _, ?_⟩
        intro x hx hx2
        have hxb : x = b.id := by simpa using hx2
        have := hlt x hx
        omega
    · rw [he]
      exact ⟨hlt, hnd⟩
  | put idStr t a now =>
    refine ⟨fun i hi => ?_, hnd⟩
    rw [show (runOp st (.put idStr t a now)).1 = (putBook idStr t a now st.1).2 from rfl,
      putBook_nextId]
    exact hlt i hi
  | deleteOne idStr =>
    refine ⟨fun i hi => ?_, hnd⟩
    rw [show (runOp st (.deleteOne idStr)).1 = (deleteBookById idStr st.1).2 from rfl,
      deleteBookById_nextId]
    exact hlt i hi
  | deleteAll => exact absurd rfl hop

theorem foldl_preserves_inv (ops : List Op) (st : StoreState × List Int)
    (h : IssueInv st) (hops : ∀ op ∈ ops, op ≠ Op.deleteAll) :
    IssueInv (ops.foldl runOp st) := by
  induction ops generalizing st with
  | nil => exact h
  | cons op rest ih =>
    rw [List.foldl_cons]
    exact ih (runOp st op)
      (runOp_preserves_inv st op (hops op (List.mem_cons_self op rest)) h)
      (fun o ho => hops o (List.mem_cons_of_mem op ho))

/-! ## Claim theorems -/

/-- C3 (amended): id validation trichotomy shared by get-one, update and
delete-one: unparseable string (no numeric prefix) gives the invalid-format
error, a parsed value ≤ 0 gives the not-positive error, and otherwise the
operation proceeds with the parsed integer — even when the string has
trailing non-numeric characters. -/
theorem idValidation_spec (idStr : String) (title author : JSValue) (now : Nat)
    (s : StoreState) :
    (jsParseInt idStr = none →
      getBookById idStr s.books = .invalidId ∧
      putBook idStr title author now s = (.invalidId, s) ∧
      deleteBookById idStr s = (.invalidId, s)) ∧
    (∀ id : Int, jsParseInt idStr = some id → id ≤ 0 →
      getBookById idStr s.books = .notPositive ∧
      putBook idStr title author now s = (.notPositive, s) ∧
      deleteBookById idStr s = (.notPositive, s)) ∧
    (∀ id : Int, jsParseInt idStr = some id → 0 < id →
      getBookById idStr s.books = getBookCore id s.books ∧
      putBook idStr title author now s =
        ((putBookCore id title author now s.books).1,
         { s with books := (putBookCore id title author now s.books).2 }) ∧
      deleteBookById idStr s =
        ((deleteBookCore id s.books).1,
         { s with books := (deleteBookCore id s.books).2 })) := by
  refine ⟨fun h => ?_, fun id h hle => ?_, fun id h hpos => ?_⟩
  · unfold getBookById putBook deleteBookById
    rw [h]
    exact ⟨rfl, rfl, rfl⟩
  · unfold getBookById putBook deleteBookById
    rw [h]
    simp only [if_pos hle]
    exact ⟨trivial, trivial, trivial⟩
  · unfold getBookById putBook deleteBookById
    rw [h]
    simp only [if_neg (by omega : ¬ id ≤ 0)]
    exact ⟨trivial, trivial, trivial⟩

theorem idValidation_spec_witness :
    (getBookById "abc" initialState.books = .invalidId) ∧
    (getBookById "-3" initialState.books = .notPositive) ∧
    (getBookById "7" initialState.books = getBookCore 7 initialState.books) :=
  ⟨((idValidation_spec "abc" .undef .undef 0 initialState).1 (by decide)).1,
   ((idValidation_spec "-3" .undef .undef 0 initialState).2.1 (-3) (by decide) (by decide)).1,
   ((idValidation_spec "7" .undef .undef 0 initialState).2.2 7 (by decide) (by decide)).1⟩

/-- C3 counterexample: "12abc" is not entirely numeric, yet it is not
rejected as invalid format — it parses to 12 and the lookup proceeds. -/
theorem idValidation_counterexample :
    jsParseInt "12abc" = some 12 ∧
    getBookById "12abc" [{ sampleBook with id := 12 }] =
      .found { sampleBook with id := 12 } := by decide

/-- C7: create-validation returns the single required-fields error when a
field is absent, and otherwise collects all applicable per-field errors in
a fixed order, being valid exactly when no error applies. -/
theorem validateBookData_spec (title author : JSValue) :
    (title = .undef ∨ author = .undef →
      validateBookData title author =
        { isValid := false, errors := ["Title and author are required fields"] }) ∧
    (title ≠ .undef → author ≠ .undef →
      ((validateBookData title author).errors =
        (if title.isStr = false then ["Title must be a string"] else []) ++
        (if author.isStr = false then ["Author must be a string"] else []) ++
        (if title.isBlankStr = true then ["Title cannot be empty"] else []) ++
        (if author.isBlankStr = true then ["Author cannot be empty"] else [])) ∧
      ((validateBookData title author).isValid = true ↔
        (validateBookData title author).errors = [])) := by
  constructor
  · intro h
    unfold validateBookData
    rw [if_pos h]
  · intro h1 h2
    have hc : ¬ (title = .undef ∨ author = .undef) := by tauto
    unfold validateBookData
    rw [if_neg hc]
    constructor
    · simp
    · simp [List.isEmpty_iff]

theorem validateBookData_spec_witness :
    (validateBookData .undef (.str "x") =
      { isValid := false, errors := ["Title and author are required fields"] }) ∧
    ((validateBookData (.num 1) (.str " ")).errors =
        (if (JSValue.num 1).isStr = false then ["Title must be a string"] else []) ++
        (if (JSValue.str " ").isStr = false then ["Author must be a string"] else []) ++
        (if (JSValue.num 1).isBlankStr = true then ["Title cannot be empty"] else []) ++
        (if (JSValue.str " ").isBlankStr = true then ["Author cannot be empty"] else [])) ∧
    ((validateBookData (.num 1) (.str " ")).isValid = true ↔
      (validateBookData (.num 1) (.str " ")).errors = []) :=
  ⟨(validateBookData_spec .undef (.str "x")).1 (Or.inl rfl),
   ((validateBookData_spec (.num 1) (.str " ")).2 (by decide) (by decide)).1,
   ((validateBookData_spec (.num 1) (.str " ")).2 (by decide) (by decide)).2⟩

/-- C10: in the list-all, delete-all and search responses, the `count`
field equals the length of the returned `data` array. -/
theorem responses_count_eq_length (books : List Book) (s : StoreState) (q : String) :
    ((listAllBooks books).count = (listAllBooks books).data.length) ∧
    (((deleteAllBooks s).1).count = ((deleteAllBooks s).1).data.length) ∧
    (∀ q0 n data, searchBooks q books = .results q0 n data → n = data.length) := by
  refine ⟨rfl, rfl, fun q0 n data h => ?_⟩
  simp only [searchBooks] at h
  split at h
  · cases h
  · rw [SearchResult.results.injEq] at h
    rw [← h.2.1, ← h.2.2]

theorem responses_count_eq_length_witness :
    (0 : Nat) = ([] : List Book).length :=
  (responses_count_eq_length [] initialState "a").2.2 "a" 0 [] (by decide)

/-- C2 (amended): for a well-formed id naming an existing book, the update
fails with the no-fields error exactly when both body fields are falsy
(absent, null, false, 0 or the empty string); a present but falsy field such
as the empty string therefore triggers the no-fields error rather than the
per-field checks. -/
theorem putBook_noFields_iff (idStr : String) (title author : JSValue) (now : Nat)
    (s : StoreState) (id : Int) (idx : Nat) (book : Book)
    (hp : jsParseInt idStr = some id) (hpos : 0 < id)
    (hf : findBookById id s.books = some (idx, book)) :
    ((putBook idStr title author now s).1 = .noFields ↔
      (title.truthy = false ∧ author.truthy = false)) := by
  unfold putBook
  rw [hp]
  dsimp only
  rw [if_neg (by omega : ¬ id ≤ 0)]
  dsimp only
  by_cases hc : title.truthy = false ∧ author.truthy = false
  · unfold putBookCore
    rw [hf]
    dsimp only
    rw [if_pos hc]
    simpa using hc
  · rw [putBookCore_found id title author now s.books idx book hf hc]
    constructor
    · intro habs
      exfalso
      revert habs
      cases title with
      | undef => exact fun habs => putAuthorStep_ne_noFields _ _ _ _ _ _ habs
      | str t =>
        dsimp only
        split
        · simp
        · exact fun habs => putAuthorStep_ne_noFields _ _ _ _ _ _ habs
      | null => simp
      | bool b2 => simp
      | num n => simp
    · intro hcc
      exact absurd hcc hc

theorem putBook_noFields_iff_witness :
    ((putBook "1" (.str "") .undef 7 sampleState).1 = .noFields ↔
      ((JSValue.str "").truthy = false ∧ (JSValue.undef).truthy = false)) :=
  putBook_noFields_iff "1" (.str "") .undef 7 sampleState 1 0 sampleBook
    (by decide) (by decide) (by decide)

/-- C2 counterexample: with the title present as the empty string and the
author absent, the handler answers with the no-fields error, not with the
per-field empty-title error the claim predicts. -/
theorem putBook_noFields_counterexample :
    (putBook "1" (.str "") .undef 7 sampleState).1 = .noFields ∧
    PutResult.noFields ≠ PutResult.titleEmpty := by decide

/-- C8 (amended): a successful update applies exactly the present fields
(trimmed), leaves `id` and `createdAt` alone, refreshes `updatedAt` to now,
replaces only the targeted record, and reports as updated the field names
that were present in the request — whether or not the stored value actually
changed. -/
theorem putBook_success_spec (idStr : String) (title author : JSValue) (now : Nat)
    (s : StoreState) (id : Int) (idx : Nat) (book : Book) (fs : List String) (b : Book)
    (hp : jsParseInt idStr = some id) (hpos : 0 < id)
    (hf : findBookById id s.books = some (idx, book))
    (h : (putBook idStr title author now s).1 = .updated fs b) :
    fs = (if title = .undef then [] else ["title"]) ++
         (if author = .undef then [] else ["author"]) ∧
    b.id = book.id ∧
    b.createdAt = book.createdAt ∧
    b.updatedAt = now ∧
    b.title = (match title with | .str t => jsTrim t | _ => book.title) ∧
    b.author = (match author with | .str s2 => jsTrim s2 | _ => book.author) ∧
    (putBook idStr title author now s).2 = { s with books := s.books.set idx b } := by
  have hput : putBook idStr title author now s =
      ((putBookCore id title author now s.books).1,
       { s with books := (putBookCore id title author now s.books).2 }) := by
    unfold putBook
    rw [hp]
    dsimp only
    rw [if_neg (by omega : ¬ id ≤ 0)]
  rw [hput] at h ⊢
  dsimp only at h ⊢
  by_cases hc : title.truthy = false ∧ author.truthy = false
  · unfold putBookCore at h
    rw [hf] at h
    dsimp only at h
    rw [if_pos hc] at h
    exact absurd h (by simp)
  · rw [putBookCore_found id title author now s.books idx book hf hc] at h ⊢
    cases title with
    | undef =>
      cases author with
      | undef => exact absurd ⟨rfl, rfl⟩ hc
      | null => rw [putAuthorStep_null] at h; exact absurd h (by simp)
      | bool b2 => rw [putAuthorStep_bool] at h; exact absurd h (by simp)
      | num n => rw [putAuthorStep_num] at h; exact absurd h (by simp)
      | str s2 =>
        rw [putAuthorStep_str] at h ⊢
        by_cases hs : jsTrim s2 = ""
        · rw [if_pos hs] at h
          exact absurd h (by simp)
        · rw [if_neg hs] at h ⊢
          dsimp only at h ⊢
          rw [PutResult.updated.injEq] at h
          obtain ⟨h1, h2⟩ := h
          subst h1
          subst h2
          exact ⟨by simp, rfl, rfl, rfl, rfl, rfl, rfl⟩
    | null => exact absurd h (by simp)
    | bool b2 => exact absurd h (by simp)
    | num n => exact absurd h (by simp)
    | str t =>
      dsimp only at h ⊢
      by_cases ht : jsTrim t = ""
      · rw [if_pos ht] at h
        exact absurd h (by simp)
      · rw [if_neg ht] at h ⊢
        cases author with
        | undef =>
          rw [putAuthorStep_undef] at h ⊢
          dsimp only at h ⊢
          rw [PutResult.updated.injEq] at h
          obtain ⟨h1, h2⟩ := h
          subst h1
          subst h2
          exact ⟨by simp, rfl, rfl, rfl, rfl, rfl, by rw [List.set_set]⟩
        | null => rw [putAuthorStep_null] at h; exact absurd h (by simp)
        | bool b2 => rw [putAuthorStep_bool] at h; exact absurd h (by simp)
        | num n => rw [putAuthorStep_num] at h; exact absurd h (by simp)
        | str s2 =>
          rw [putAuthorStep_str] at h ⊢
          by_cases hs : jsTrim s2 = ""
          · rw [if_pos hs] at h
            exact absurd h (by simp)
          · rw [if_neg hs] at h ⊢
            dsimp only at h ⊢
            rw [PutResult.updated.injEq] at h
            obtain ⟨h1, h2⟩ := h
            subst h1
            subst h2
            exact ⟨by simp, rfl, rfl, rfl, rfl, rfl, by rw [List.set_set]⟩

theorem putBook_success_spec_witness :
    (["title"] = (if JSValue.str "New" = .undef then [] else ["title"]) ++
       (if JSValue.undef = .undef then [] else ["author"])) ∧
    ({ sampleBook with title := "New", updatedAt := 7 } : Book).id = sampleBook.id ∧
    ({ sampleBook with title := "New", updatedAt := 7 } : Book).createdAt = sampleBook.createdAt ∧
    ({ sampleBook with title := "New", updatedAt := 7 } : Book).updatedAt = 7 ∧
    ({ sampleBook with title := "New", updatedAt := 7 } : Book).title =
      (match JSValue.str "New" with | .str t => jsTrim t | _ => sampleBook.title) ∧
    ({ sampleBook with title := "New", updatedAt := 7 } : Book).author =
      (match JSValue.undef with | .str s2 => jsTrim s2 | _ => sampleBook.author) ∧
    (putBook "1" (.str "New") .undef 7 sampleState).2 =
      { sampleState with
          books := sampleState.books.set 0 { sampleBook with title := "New", updatedAt := 7 } } :=
  putBook_success_spec "1" (.str "New") .undef 7 sampleState 1 0 sampleBook ["title"]
    { sampleBook with title := "New", updatedAt := 7 }
    (by decide) (by decide) (by decide) (by decide)

/-- C8 counterexample: updating the title to its current stored value still
reports `updatedFields = ["title"]`, although no stored value changed other
than `updatedAt`. -/
theorem putBook_updatedFields_counterexample :
    (putBook "1" (.str "Old Title") .undef 7 sampleState).1 =
      .updated ["title"] { sampleBook with updatedAt := 7 } ∧
    sampleBook.title = "Old Title" := by decide

/-- C1 (amended): when an update-by-id request returns an error, the
`nextId` counter is unchanged; for every error other than the two
author-field errors the collection is entirely unchanged; and even on an
author-field error the id, author, createdAt and updatedAt of every record
are unmodified — only the title of the targeted record may already have been updated
by the time the author validation fails. -/
theorem putBook_error_frame (idStr : String) (title author : JSValue) (now : Nat)
    (s : StoreState)
    (h : (putBook idStr title author now s).1.isError = true) :
    ((putBook idStr title author now s).2.nextId = s.nextId) ∧
    ((putBook idStr title author now s).1 ≠ .authorNotString →
     (putBook idStr title author now s).1 ≠ .authorEmpty →
     (putBook idStr title author now s).2 = s) ∧
    (∀ i : Nat,
      (((putBook idStr title author now s).2.books[i]?).map Book.id =
        (s.books[i]?).map Book.id) ∧
      (((putBook idStr title author now s).2.books[i]?).map Book.author =
        (s.books[i]?).map Book.author) ∧
      (((putBook idStr title author now s).2.books[i]?).map Book.createdAt =
        (s.books[i]?).map Book.createdAt) ∧
      (((putBook idStr title author now s).2.books[i]?).map Book.updatedAt =
        (s.books[i]?).map Book.updatedAt)) := by
  cases hp : jsParseInt idStr with
  | none =>
    have hput : putBook idStr title author now s = (.invalidId, s) := by
      unfold putBook
      rw [hp]
    rw [hput]
    exact ⟨rfl, fun _ _ => rfl, fun i => ⟨rfl, rfl, rfl, rfl⟩⟩
  | some id =>
    by_cases hle : id ≤ 0
    · have hput : putBook idStr title author now s = (.notPositive, s) := by
        unfold putBook
        rw [hp]
        dsimp only
        rw [if_pos hle]
      rw [hput]
      exact ⟨rfl, fun _ _ => rfl, fun i => ⟨rfl, rfl, rfl, rfl⟩⟩
    · have hput : putBook idStr title author now s =
          ((putBookCore id title author now s.books).1,
           { s with books := (putBookCore id title author now s.books).2 }) := by
        unfold putBook
        rw [hp]
        dsimp only
        rw [if_neg hle]
      rw [hput] at h ⊢
      dsimp only at h ⊢
      cases hfb : findBookById id s.books with
      | none =>
        have hcore : putBookCore id title author now s.books = (.notFound id, s.books) := by
          unfold putBookCore
          rw [hfb]
        rw [hcore]
        exact ⟨rfl, fun _ _ => rfl, fun i => ⟨rfl, rfl, rfl, rfl⟩⟩
      | some p =>
        obtain ⟨idx, book⟩ := p
        by_cases hc : title.truthy = false ∧ author.truthy = false
        · have hcore : putBookCore id title author now s.books = (.noFields, s.books) := by
            unfold putBookCore
            rw [hfb]
            dsimp only
            rw [if_pos hc]
          rw [hcore]
          exact ⟨rfl, fun _ _ => rfl, fun i => ⟨rfl, rfl, rfl, rfl⟩⟩
        · obtain ⟨hlt, hget, hid⟩ := findBookById_some hfb
          rw [putBookCore_found id title author now s.books idx book hfb hc] at h ⊢
          cases title with
          | undef =>
            cases author with
            | undef => exact absurd ⟨rfl, rfl⟩ hc
            | null =>
              rw [putAuthorStep_null] at h ⊢
              exact ⟨rfl, fun h1 _ => absurd rfl h1, fun i => ⟨rfl, rfl, rfl, rfl⟩⟩
            | bool b2 =>
              rw [putAuthorStep_bool] at h ⊢
              exact ⟨rfl, fun h1 _ => absurd rfl h1, fun i => ⟨rfl, rfl, rfl, rfl⟩⟩
            | num n =>
              rw [putAuthorStep_num] at h ⊢
              exact ⟨rfl, fun h1 _ => absurd rfl h1, fun i => ⟨rfl, rfl, rfl, rfl⟩⟩
            | str s2 =>
              rw [putAuthorStep_str] at h ⊢
              by_cases hs : jsTrim s2 = ""
              · rw [if_pos hs] at h ⊢
                exact ⟨rfl, fun _ h2 => absurd rfl h2, fun i => ⟨rfl, rfl, rfl, rfl⟩⟩
              · rw [if_neg hs] at h
                exact absurd h (by simp [PutResult.isError])
          | null =>
            exact ⟨rfl, fun _ _ => rfl, fun i => ⟨rfl, rfl, rfl, rfl⟩⟩
          | bool b2 =>
            exact ⟨rfl, fun _ _ => rfl, fun i => ⟨rfl, rfl, rfl, rfl⟩⟩
          | num n =>
            exact ⟨rfl, fun _ _ => rfl, fun i => ⟨rfl, rfl, rfl, rfl⟩⟩
          | str t =>
            dsimp only at h ⊢
            by_cases ht : jsTrim t = ""
            · rw [if_pos ht] at h ⊢
              exact ⟨rfl, fun _ _ => rfl, fun i => ⟨rfl, rfl, rfl, rfl⟩⟩
            · rw [if_neg ht] at h ⊢
              cases author with
              | undef =>
                rw [putAuthorStep_undef] at h
                exact absurd h (by simp [PutResult.isError])
              | null =>
                rw [putAuthorStep_null] at h ⊢
                refine ⟨rfl, fun h1 _ => absurd rfl h1, fun i => ?_⟩
                dsimp only
                exact set_frame_aux s.books idx book { book with title := jsTrim t } hget rfl rfl rfl rfl i
              | bool b2 =>
                rw [putAuthorStep_bool] at h ⊢
                refine ⟨rfl, fun h1 _ => absurd rfl h1, fun i => ?_⟩
                dsimp only
                exact set_frame_aux s.books idx book { book with title := jsTrim t } hget rfl rfl rfl rfl i
              | num n =>
                rw [putAuthorStep_num] at h ⊢
                refine ⟨rfl, fun h1 _ => absurd rfl h1, fun i => ?_⟩
                dsimp only
                exact set_frame_aux s.books idx book { book with title := jsTrim t } hget rfl rfl rfl rfl i
              | str s2 =>
                rw [putAuthorStep_str] at h ⊢
                by_cases hs : jsTrim s2 = ""
                · rw [if_pos hs] at h ⊢
                  refine ⟨rfl, fun _ h2 => absurd rfl h2, fun i => ?_⟩
                  dsimp only
                  exact set_frame_aux s.books idx book { book with title := jsTrim t } hget rfl rfl rfl rfl i
                · rw [if_neg hs] at h
                  exact absurd h (by simp [PutResult.isError])

theorem putBook_error_frame_witness :
    ((putBook "0" (.str "T") .undef 3 sampleState).2.nextId = sampleState.nextId) ∧
    (((putBook "0" (.str "T") .undef 3 sampleState).2.books[0]?).map Book.author =
      (sampleState.books[0]?).map Book.author) :=
  ⟨(putBook_error_frame "0" (.str "T") .undef 3 sampleState (by decide)).1,
   ((putBook_error_frame "0" (.str "T") .undef 3 sampleState (by decide)).2.2 0).2.1⟩

/-- C1 counterexample: an update with a valid title and a non-string author
returns an error, yet the title of the targeted record has already been changed
— the collection is not left as it was. -/
theorem putBook_partial_update_counterexample :
    (putBook "1" (.str "New") (.num 5) 7 sampleState).1 = .authorNotString ∧
    (putBook "1" (.str "New") (.num 5) 7 sampleState).2.books =
      [{ sampleBook with title := "New" }] ∧
    sampleBook.title ≠ "New" := by decide

/-- C9: a successful delete-by-id removes exactly the targeted record,
returns its `{id, title, author}` snapshot, keeps every other record (and
their relative order) intact, and leaves the `nextId` counter unchanged. -/
theorem deleteBookById_spec (idStr : String) (s : StoreState) (id : Int)
    (idx : Nat) (book : Book)
    (hp : jsParseInt idStr = some id) (hpos : 0 < id)
    (hf : findBookById id s.books = some (idx, book)) :
    book.id = id ∧
    s.books[idx]? = some book ∧
    deleteBookById idStr s =
      (.deleted { id := id, title := book.title, author := book.author },
       { books := s.books.take idx ++ s.books.drop (idx + 1),
         nextId := s.nextId }) := by
  obtain ⟨hlt, hget, hid⟩ := findBookById_some hf
  refine ⟨hid, hget, ?_⟩
  unfold deleteBookById
  rw [hp]
  dsimp only
  rw [if_neg (by omega : ¬ id ≤ 0)]
  unfold deleteBookCore
  rw [hf]
  dsimp only
  rw [List.eraseIdx_eq_take_drop_succ]

theorem deleteBookById_spec_witness :
    sampleBook.id = 1 ∧
    sampleState.books[0]? = some sampleBook ∧
    deleteBookById "1" sampleState =
      (.deleted { id := 1, title := sampleBook.title, author := sampleBook.author },
       { books := sampleState.books.take 0 ++ sampleState.books.drop 1,
         nextId := sampleState.nextId }) :=
  deleteBookById_spec "1" sampleState 1 0 sampleBook (by decide) (by decide) (by decide)

/-- C6: search rejects an empty or whitespace-only query with the
empty-query error; otherwise it answers with exactly the books whose
lowercased title or author contains the lowercased query as a substring,
as a filter of the collection (hence in collection order). -/
theorem searchBooks_spec (rawQuery : String) (books : List Book) :
    (jsTrim rawQuery = "" → searchBooks rawQuery books = .emptyQuery) ∧
    (jsTrim rawQuery ≠ "" →
      searchBooks rawQuery books =
        .results rawQuery (books.filter (bookMatches (jsToLower rawQuery))).length
          (books.filter (bookMatches (jsToLower rawQuery))) ∧
      (∀ b, b ∈ books.filter (bookMatches (jsToLower rawQuery)) ↔
        b ∈ books ∧ bookMatches (jsToLower rawQuery) b = true) ∧
      (books.filter (bookMatches (jsToLower rawQuery))).Sublist books) := by
  constructor
  · intro h
    have hb : jsTrim (jsToLower rawQuery) = "" :=
      (jsTrim_toLower_empty_iff rawQuery).2 h
    unfold searchBooks
    rw [if_pos (Or.inr hb)]
  · intro h
    have h1 : ¬ jsTrim (jsToLower rawQuery) = "" := fun hc =>
      h ((jsTrim_toLower_empty_iff rawQuery).1 hc)
    have h2 : ¬ jsToLower rawQuery = "" := by
      intro hc
      exact h1 (by rw [hc]; rfl)
    refine ⟨?_, fun b => List.mem_filter, List.filter_sublist books⟩
    unfold searchBooks
    rw [if_neg (by tauto)]

theorem searchBooks_spec_witness :
    (searchBooks "   " [sampleBook] = .emptyQuery) ∧
    (searchBooks "OLD" [sampleBook] =
      .results "OLD" ([sampleBook].filter (bookMatches (jsToLower "OLD"))).length
        ([sampleBook].filter (bookMatches (jsToLower "OLD")))) :=
  ⟨(searchBooks_spec "   " [sampleBook]).1 (by decide),
   ((searchBooks_spec "OLD" [sampleBook]).2 (by decide)).1⟩

/-- C5: over any run of insert requests the successfully assigned ids are
pairwise distinct and strictly increasing in insertion order, and the first
successful insert after a delete-all is assigned id 1. -/
theorem insertIds_strictMono_and_reset (reqs : List (JSValue × JSValue × Nat))
    (s : StoreState) (t a : JSValue) (now : Nat) (b : Book)
    (h : (postBook t a now (deleteAllBooks s).2).1 = .created b) :
    (postIds reqs s).Pairwise (· < ·) ∧ b.id = 1 := by
  refine ⟨postIds_pairwise reqs s, ?_⟩
  rcases postBook_cases t a now (deleteAllBooks s).2 with ⟨b2, hb, hbid⟩ | ⟨e, he⟩
  · rw [hb] at h
    dsimp only at h
    rw [PostResult.created.injEq] at h
    rw [h] at hbid
    exact hbid
  · rw [he] at h
    exact absurd h (by simp)

theorem insertIds_strictMono_and_reset_witness :
    (postIds [((JSValue.str "A"), (JSValue.str "B"), 0)] initialState).Pairwise (· < ·) ∧
    ({ id := 1, title := "X", author := "Y", createdAt := 5, updatedAt := 5 } : Book).id = 1 :=
  insertIds_strictMono_and_reset [((.str "A"), (.str "B"), 0)] initialState
    (.str "X") (.str "Y") 5
    { id := 1, title := "X", author := "Y", createdAt := 5, updatedAt := 5 }
    (by decide)

/-- C4 (amended): along any trace that never performs delete-all, the
next-id counter stays strictly above every id ever issued and no id is
issued twice.  (Delete-all resets the counter to 1, after which previously
issued ids are reused — see the counterexample.) -/
theorem nextId_gt_issued_without_deleteAll (ops : List Op)
    (h : Op.deleteAll ∉ ops) :
    (∀ i ∈ (runOps ops).2, i < (runOps ops).1.nextId) ∧
    ((runOps ops).2).Nodup := by
  have hinv : IssueInv (runOps ops) :=
    foldl_preserves_inv ops (initialState, [])
      ⟨fun i hi => absurd hi (List.not_mem_nil i), List.nodup_nil⟩
      (fun op hop heq => h (heq ▸ hop))
  exact hinv

theorem nextId_gt_issued_witness :
    ((1 : Int) < (runOps [Op.post (.str "A") (.str "B") 0, Op.deleteOne "1"]).1.nextId) ∧
    ((runOps [Op.post (.str "A") (.str "B") 0, Op.deleteOne "1"]).2).Nodup :=
  ⟨(nextId_gt_issued_without_deleteAll [Op.post (.str "A") (.str "B") 0, Op.deleteOne "1"]
      (by decide)).1 1 (by decide),
   (nextId_gt_issued_without_deleteAll [Op.post (.str "A") (.str "B") 0, Op.deleteOne "1"]
      (by decide)).2⟩

/-- C4 counterexample: insert, delete-all, insert again — after the reset
the counter equals an already-issued id (so it is not strictly greater),
and id 1 is issued twice. -/
theorem nextId_reuse_counterexample :
    ((runOps [Op.post (.str "A") (.str "B") 0, Op.deleteAll]).2 = [1]) ∧
    ((runOps [Op.post (.str "A") (.str "B") 0, Op.deleteAll]).1.nextId = 1) ∧
    ¬ ((1 : Int) < 1) ∧
    ((runOps [Op.post (.str "A") (.str "B") 0, Op.deleteAll,
        Op.post (.str "A") (.str "B") 0]).2 = [1, 1]) ∧
    ¬ ((runOps [Op.post (.str "A") (.str "B") 0, Op.deleteAll,
        Op.post (.str "A") (.str "B") 0]).2).Nodup := by decide

end BooksApi
